import Mathlib

/-!
Verification development for the BullaEND community-management bot
(`src/index.ts`, with a second revision of some handlers in
`src/unnamed/part_000`).  The definitions below are a shallow embedding of
the role-threshold reconciler (`updateRoles`), the leaderboard ranking and
pagination, the CSV formatter (`createCSV`), the `/fine` and `/transfer`
handlers, and the winning-team computation shared by `updateRoles` and the
`/snapshot` handler.
-/

/-! ## Role-id constants (src/index.ts lines 77-86) -/

def WHITELIST_ROLE_ID : String := "1263470313300295751"

def MOOLALIST_ROLE_ID : String := "1263470568536014870"

def FREE_MINT_ROLE_ID : String := "1328473525710884864"

def FREE_MINT_WINNER_ROLE_ID : String := "1263470790314164325"

def WL_WINNER_ROLE_ID : String := "1264963781419597916"

def ML_WINNER_ROLE_ID : String := "1267532607491407933"

/-! ## Data model

A `users` row carries `discord_id` (nullable string), `points` and `team`
(nullable enum rendered as a string).  The user store is the list of rows.
The membership gateway (`guild`) is modelled as the set of role ids present
in the guild role cache together with a partial map from discord ids to the
role-id list of the resolved member; `none` models a member whose fetch
fails (left the server), which the source catches and skips.
-/

structure User where
  discord_id : Option String
  points : Int
  team : Option String
deriving Repr, DecidableEq

structure Db where
  users : List User
deriving Repr, DecidableEq

structure Guild where
  rolesCache : List String
  members : String → Option (List String)

def fetchMember (g : Guild) (id : String) : Option (List String) :=
  g.members id

/-- The role-id list of member `id`, empty when the member does not resolve. -/
def memberRoles (g : Guild) (id : String) : List String :=
  (g.members id).getD []

/-- `member.roles.add(role)`: appends `roleId` to the role list of member `id`. -/
def addRoleTo (g : Guild) (id roleId : String) : Guild :=
  { g with members := fun x => if x == id then (g.members x).map (fun rs => rs ++ [roleId]) else g.members x }

/-! ## RoleUpdateLog (src/index.ts lines 215-219) -/

structure Counter where
  added : Nat
  existing : Nat
deriving Repr, DecidableEq

structure RoleUpdateLog where
  whitelist : Counter
  moolalist : Counter
  freemint : Counter
deriving Repr, DecidableEq

/-! ## Team points and winning team (lines 116-126, 233-240, 924-926) -/

/-- `sum_points_for_team` RPC: the sum of `points` over the rows of a team. -/
def sumPointsForTeam (db : Db) (teamName : String) : Int :=
  (db.users.filter (fun u => u.team == some teamName)).foldl (fun acc u => acc + u.points) 0

def getTeamPoints (db : Db) : Int × Int :=
  (sumPointsForTeam db "bullas", sumPointsForTeam db "beras")

/-- `teamPoints.bullas > teamPoints.beras ? "bullas" : "beras"` (line 234). -/
def winningTeamOf (db : Db) : String :=
  if (getTeamPoints db).1 > (getTeamPoints db).2 then "bullas" else "beras"

inductive TeamType where
  | winning
  | losing
deriving Repr, DecidableEq

/-- Lines 235-240: the ternary chain resolving the target team label. -/
def targetTeamOf (db : Db) (teamType : TeamType) : String :=
  match teamType with
  | .winning => winningTeamOf db
  | .losing => if winningTeamOf db == "bullas" then "beras" else "bullas"

/-- The same winning-team computation duplicated in the `/snapshot` handler
(lines 924-925). -/
def snapshotWinningTeam (db : Db) : String :=
  if (getTeamPoints db).1 > (getTeamPoints db).2 then "bullas" else "beras"

/-- Line 926 of the `/snapshot` handler. -/
def snapshotLosingTeam (db : Db) : String :=
  if snapshotWinningTeam db == "bullas" then "beras" else "bullas"

/-! ## Threshold reconciler (`updateRoles`, lines 205-310)

The three per-category blocks of the player loop (whitelist lines 260-269,
moolalist lines 272-281, free mint lines 284-296) are identical up to the
role ids, the threshold and the targeted counter; `roleStep` is that block
parametrised accordingly.  `roles` is the member role cache captured at
fetch time: a `roles.add` call does not synchronously update the fetched
cache, and the three checks touch pairwise distinct role ids.
-/

def roleStep (baseId winnerId : String) (threshold points : Int) (isSimulation : Bool)
    (id : String) (roles : List String) (g : Guild) (c : Counter) : Guild × Counter :=
  if threshold ≤ points then
    if !(roles.contains baseId) && !(roles.contains winnerId) then
      ((if isSimulation then g else addRoleTo g id baseId), { c with added := c.added + 1 })
    else
      (g, { c with existing := c.existing + 1 })
  else
    (g, c)

/-- One iteration of the `for (const player of players)` loop (lines 254-307).
A player with a null (or empty, by JS truthiness) `discord_id` is skipped,
as is a player whose member fetch fails. -/
def processPlayer (wlThreshold mlThreshold freemintThreshold : Int) (isSimulation : Bool)
    (st : Guild × RoleUpdateLog) (player : User) : Guild × RoleUpdateLog :=
  match player.discord_id with
  | none => st
  | some id =>
    if id == "" then st
    else
      match fetchMember st.1 id with
      | none => st
      | some roles =>
        let s1 := roleStep WHITELIST_ROLE_ID WL_WINNER_ROLE_ID wlThreshold player.points
          isSimulation id roles st.1 st.2.whitelist
        let s2 := roleStep MOOLALIST_ROLE_ID ML_WINNER_ROLE_ID mlThreshold player.points
          isSimulation id roles s1.1 st.2.moolalist
        let s3 := roleStep FREE_MINT_ROLE_ID FREE_MINT_WINNER_ROLE_ID freemintThreshold player.points
          isSimulation id roles s2.1 st.2.freemint
        (s3.1, ⟨s1.2, s2.2, s3.2⟩)

/-- `updateRoles` (lines 205-310): abort with zero counters when one of the
six roles is missing from the guild cache, otherwise fold the player loop
over the rows of the target team.  Returns the final guild state together
with the `RoleUpdateLog`. -/
def updateRoles (db : Db) (g : Guild) (teamType : TeamType)
    (wlThreshold mlThreshold freemintThreshold : Int) (isSimulation : Bool) :
    Guild × RoleUpdateLog :=
  let log0 : RoleUpdateLog := ⟨⟨0, 0⟩, ⟨0, 0⟩, ⟨0, 0⟩⟩
  if g.rolesCache.contains WHITELIST_ROLE_ID && g.rolesCache.contains MOOLALIST_ROLE_ID
      && g.rolesCache.contains FREE_MINT_ROLE_ID && g.rolesCache.contains WL_WINNER_ROLE_ID
      && g.rolesCache.contains ML_WINNER_ROLE_ID && g.rolesCache.contains FREE_MINT_WINNER_ROLE_ID then
    let targetTeam := targetTeamOf db teamType
    let players := db.users.filter (fun u => u.team == some targetTeam)
    players.foldl (processPlayer wlThreshold mlThreshold freemintThreshold isSimulation) (g, log0)
  else
    (g, log0)

/-! ## Ranking service (`/leaderboard` handler, src/index.ts lines 1041-1150,
and the pagination button handler lines 1210-1316) -/

def EXCLUDED_USER_IDS : List String :=
  ["649377665496776724", "534027215973646346", "144683637718122496"]

/-- The filtered population of the leaderboard queries: rows whose
`discord_id` is not null and not excluded (`.not("discord_id", "in", ...)`,
which a SQL null never passes), restricted to the selected team unless
`teamOption` is `"all"`. -/
def leaderboardPopulation (db : Db) (teamOption : String) : List User :=
  db.users.filter (fun u =>
    match u.discord_id with
    | some id => !(EXCLUDED_USER_IDS.contains id) && (teamOption == "all" || u.team == some teamOption)
    | none => false)

/-- Insertion into a points-descending list, keeping earlier elements ahead
of later equal ones. -/
def insertDesc (u : User) : List User → List User
  | [] => [u]
  | v :: vs => if v.points ≤ u.points then u :: v :: vs else v :: insertDesc u vs

/-- The store's `order("points", { ascending: false })` sort. -/
def sortByPointsDesc : List User → List User
  | [] => []
  | u :: us => insertDesc u (sortByPointsDesc us)

/-- The ranked sequence: the filtered population ordered points-descending. -/
def rankUsers (db : Db) (teamOption : String) : List User :=
  sortByPointsDesc (leaderboardPopulation db teamOption)

/-- `allUsers.findIndex(...)` of the TS handlers, with `none` for `-1`. -/
def findIndexOf (p : User → Bool) : List User → Option Nat
  | [] => none
  | u :: us => if p u then some 0 else (findIndexOf p us).map (· + 1)

/-- `query.range(skip, skip + itemsPerPage - 1)` with
`skip = (page - 1) * 10`: the ten-entry slice of the ranked sequence. -/
def pageEntries (ranked : List User) (page : Nat) : List User :=
  (ranked.drop ((page - 1) * 10)).take 10

/-- `Math.ceil((count || 0) / itemsPerPage)` with `itemsPerPage = 10`. -/
def totalPagesOf (count : Nat) : Nat :=
  (count + 9) / 10

structure LeaderboardView where
  yourRank : Option Nat
  entries : List User
  totalPages : Nat
  prevDisabled : Bool
  nextDisabled : Bool
deriving Repr, DecidableEq

/-- The `/leaderboard` handler: the full ranking is fetched first to find
the requesting user (shown as `userRank + 1` when found), the page slice is
served with an exact count of the same filtered population, and the
Previous/Next buttons are disabled by `page <= 1` and
`page >= totalPages`. -/
def leaderboard (db : Db) (callerId : String) (teamOption : String) (page : Nat) :
    LeaderboardView :=
  let allUsers := rankUsers db teamOption
  let userRank := findIndexOf (fun u => u.discord_id == some callerId) allUsers
  let count := allUsers.length
  let totalPages := totalPagesOf count
  { yourRank := userRank.map (· + 1)
    entries := pageEntries allUsers page
    totalPages := totalPages
    prevDisabled := decide (page ≤ 1)
    nextDisabled := decide (totalPages ≤ page) }

/-! ## CSV formatter (`createCSV`, lines 143-186)

Role flags are resolved through a batched member fetch into `membersMap`;
`fetchRoles` stands for that map, `none` for a member absent from it (whose
three flags then render as `N`). -/

structure CsvUser where
  discord_id : String
  address : String
  points : Int
deriving Repr, DecidableEq

/-- One data line of the CSV (lines 162-183). -/
def csvRow (includeDiscordId : Bool) (fetchRoles : String → Option (List String))
    (user : CsvUser) : String :=
  let roles := (fetchRoles user.discord_id).getD []
  let hasWL := if roles.contains WHITELIST_ROLE_ID || roles.contains WL_WINNER_ROLE_ID then "Y" else "N"
  let hasML := if roles.contains MOOLALIST_ROLE_ID || roles.contains ML_WINNER_ROLE_ID then "Y" else "N"
  let hasFreeMint := if roles.contains FREE_MINT_ROLE_ID || roles.contains FREE_MINT_WINNER_ROLE_ID then "Y" else "N"
  if includeDiscordId then
    user.discord_id ++ "," ++ user.address ++ "," ++ toString user.points ++ ","
      ++ hasWL ++ "," ++ hasML ++ "," ++ hasFreeMint
  else
    user.address ++ "," ++ toString user.points ++ ","
      ++ hasWL ++ "," ++ hasML ++ "," ++ hasFreeMint

/-- `createCSV`: fixed header by `includeDiscordId`, then the data lines
joined with newlines, in input order. -/
def createCSV (data : List CsvUser) (includeDiscordId : Bool)
    (fetchRoles : String → Option (List String)) : String :=
  let header := if includeDiscordId then "discord_id,address,points,wl_role,ml_role,free_mint_role\n"
    else "address,points,wl_role,ml_role,free_mint_role\n"
  let rows := data.map (csvRow includeDiscordId fetchRoles)
  header ++ String.intercalate "\n" rows

/-! ## Point-mutation commands (`/fine` lines 959-1014, `/transfer` lines 707-791) -/

/-- `.select("*").eq("discord_id", id).single()`. -/
def findUser (db : Db) (id : String) : Option User :=
  db.users.find? (fun u => u.discord_id == some id)

/-- `.update({ points: pts }).eq("discord_id", id)`: set-absolute points. -/
def updatePoints (db : Db) (id : String) (pts : Int) : Db :=
  ⟨db.users.map (fun u => if u.discord_id == some id then { u with points := pts } else u)⟩

/-- The `/fine` handler after the admin gate: validation
`!targetUser || !amount || amount <= 0` (a present integer option is falsy
exactly when it is 0), user lookup, floor check, then one set-absolute
update.  The pair is the resulting store and the reply text. -/
def fineHandler (db : Db) (target : Option String) (amount : Int) : Db × String :=
  match target with
  | none => (db, "Please provide a valid user and a positive amount.")
  | some targetId =>
    if amount == 0 || decide (amount ≤ 0) then
      (db, "Please provide a valid user and a positive amount.")
    else
      match findUser db targetId with
      | none => (db, "User not found or an error occurred.")
      | some userData =>
        if userData.points < amount then
          (db, "The user lacks enough points for this fine.")
        else
          let updatedPoints := userData.points - amount
          (updatePoints db targetId updatedPoints,
            s!"Successfully fined <@{targetId}> {amount} points. Their new balance is {updatedPoints} points.")

/-- The `/transfer` handler after the admin gate: validation
`!targetUser || !amount` (note: only a missing target or a zero amount fail
it), sender fetch, balance check, receiver fetch, then the two independent
set-absolute updates. -/
def transferHandler (db : Db) (senderId : String) (target : Option String) (amount : Int) :
    Db × String :=
  match target with
  | none => (db, "Please provide a valid user and amount.")
  | some targetId =>
    if amount == 0 then
      (db, "Please provide a valid user and amount.")
    else
      match findUser db senderId with
      | none => (db, "An error occurred while fetching the sender.")
      | some senderData =>
        if senderData.points < amount then
          (db, "Insufficient points to transfer.")
        else
          match findUser db targetId with
          | none => (db, "An error occurred while fetching the receiver.")
          | some receiverData =>
            let updatedSenderPoints := senderData.points - amount
            let updatedReceiverPoints := receiverData.points + amount
            let db1 := updatePoints db senderId updatedSenderPoints
            let db2 := updatePoints db1 targetId updatedReceiverPoints
            (db2, s!"Successfully transferred {amount} points to <@{targetId}>.")

/-! ## Concrete fixtures for scenario claims and witnesses -/

def ALL_GUILD_ROLE_IDS : List String :=
  [WHITELIST_ROLE_ID, MOOLALIST_ROLE_ID, FREE_MINT_ROLE_ID,
   WL_WINNER_ROLE_ID, ML_WINNER_ROLE_ID, FREE_MINT_WINNER_ROLE_ID]

/-- The reconcile scenario of spec section 8, item 6: two target-team
members with 150 and 50 points and no current roles. -/
def scenarioDb : Db :=
  ⟨[⟨some "a", 150, some "bullas"⟩, ⟨some "b", 50, some "bullas"⟩]⟩

def scenarioGuild : Guild :=
  { rolesCache := ALL_GUILD_ROLE_IDS
    members := fun x => if x == "a" then some [] else if x == "b" then some [] else none }

/-- A guild where member `a` already holds an unrelated role `"x"`. -/
def scenarioGuildX : Guild :=
  { rolesCache := ALL_GUILD_ROLE_IDS
    members := fun x => if x == "a" then some ["x"] else none }

/-- 25 members on one team, none excluded: the pagination scenario of spec
section 8, item 7. -/
def db25 : Db :=
  ⟨(List.range 25).map (fun i => ⟨some ("u" ++ toString i), (i : Int), some "bullas"⟩)⟩

/-- One row with an excluded id next to a regular row. -/
def dbEx : Db :=
  ⟨[⟨some "649377665496776724", 99, some "bullas"⟩, ⟨some "a", 5, some "bullas"⟩]⟩

def dbFine : Db := ⟨[⟨some "t", 30, none⟩]⟩

def dbTransfer : Db := ⟨[⟨some "s", 30, none⟩, ⟨some "r", 10, none⟩]⟩

/-! ## Guild-state lemmas -/

theorem addRoleTo_members_ne {g : Guild} {id roleId x : String} (h : x ≠ id) :
    (addRoleTo g id roleId).members x = g.members x := by
  simp [addRoleTo, h]

theorem mem_memberRoles_addRoleTo {g : Guild} {id roleId x r : String}
    (h : r ∈ memberRoles g x) : r ∈ memberRoles (addRoleTo g id roleId) x := by
  by_cases hx : x = id
  · subst hx
    unfold memberRoles addRoleTo at *
    cases hm : g.members x with
    | none => rw [hm] at h; simp at h
    | some rs =>
      rw [hm] at h
      simp only [Option.getD_some] at h
      simp [hm, List.mem_append, h]
  · unfold memberRoles
    rw [addRoleTo_members_ne hx]
    exact h

/-! ## roleStep lemmas -/

theorem roleStep_fst_sim {b w : String} {t pts : Int} {id : String} {roles : List String}
    {g : Guild} {c : Counter} : (roleStep b w t pts true id roles g c).1 = g := by
  unfold roleStep
  split
  · split <;> rfl
  · rfl

theorem roleStep_snd_congr {b w : String} {t pts : Int} (sim1 sim2 : Bool) {id : String}
    {roles : List String} (g1 g2 : Guild) {c : Counter} :
    (roleStep b w t pts sim1 id roles g1 c).2 = (roleStep b w t pts sim2 id roles g2 c).2 := by
  unfold roleStep
  split
  · split <;> rfl
  · rfl

theorem roleStep_members_ne {b w : String} {t pts : Int} {sim : Bool} {id : String}
    {roles : List String} {g : Guild} {c : Counter} {x : String} (hx : x ≠ id) :
    (roleStep b w t pts sim id roles g c).1.members x = g.members x := by
  unfold roleStep
  split
  · split
    · cases sim
      · simpa using addRoleTo_members_ne hx
      · rfl
    · rfl
  · rfl

theorem roleStep_mono {b w : String} {t pts : Int} {sim : Bool} {id : String}
    {roles : List String} {g : Guild} {c : Counter} {x r : String}
    (h : r ∈ memberRoles g x) : r ∈ memberRoles (roleStep b w t pts sim id roles g c).1 x := by
  unfold roleStep
  split
  · split
    · cases sim
      · simpa using mem_memberRoles_addRoleTo h
      · simpa using h
    · simpa using h
  · simpa using h

/-! ## processPlayer lemmas -/

theorem processPlayer_fst_sim (wl ml fm : Int) (st : Guild × RoleUpdateLog) (p : User) :
    (processPlayer wl ml fm true st p).1 = st.1 := by
  cases hd : p.discord_id with
  | none => simp [processPlayer, hd]
  | some id =>
    by_cases he : id = ""
    · subst he; simp [processPlayer, hd]
    · cases hg : st.1.members id with
      | none => simp [processPlayer, hd, he, fetchMember, hg]
      | some roles => simp [processPlayer, hd, he, fetchMember, hg, roleStep_fst_sim]

theorem processPlayer_members_ne {wl ml fm : Int} {sim : Bool} {st : Guild × RoleUpdateLog}
    {p : User} {x : String} (hx : p.discord_id ≠ some x) :
    (processPlayer wl ml fm sim st p).1.members x = st.1.members x := by
  cases hd : p.discord_id with
  | none => simp [processPlayer, hd]
  | some id =>
    have hne : x ≠ id := fun h => hx (by rw [hd, h])
    by_cases he : id = ""
    · subst he; simp [processPlayer, hd]
    · cases hg : st.1.members id with
      | none => simp [processPlayer, hd, he, fetchMember, hg]
      | some roles =>
        have he' : (id == "") = false := by simpa using he
        simp only [processPlayer, hd, he', Bool.false_eq_true, if_false, fetchMember, hg]
        rw [roleStep_members_ne hne, roleStep_members_ne hne, roleStep_members_ne hne]

theorem processPlayer_mono {wl ml fm : Int} {sim : Bool} {st : Guild × RoleUpdateLog}
    {p : User} {x r : String} (h : r ∈ memberRoles st.1 x) :
    r ∈ memberRoles (processPlayer wl ml fm sim st p).1 x := by
  cases hd : p.discord_id with
  | none => simpa [processPlayer, hd] using h
  | some id =>
    by_cases he : id = ""
    · subst he; simpa [processPlayer, hd] using h
    · cases hg : st.1.members id with
      | none => simpa [processPlayer, hd, he, fetchMember, hg] using h
      | some roles =>
        have he' : (id == "") = false := by simpa using he
        simp only [processPlayer, hd, he', Bool.false_eq_true, if_false, fetchMember, hg]
        exact roleStep_mono (roleStep_mono (roleStep_mono h))

theorem processPlayer_snd_congr {wl ml fm : Int} (sim1 sim2 : Bool) (g1 g2 : Guild)
    (log : RoleUpdateLog) (p : User)
    (hagree : ∀ id, p.discord_id = some id → g1.members id = g2.members id) :
    (processPlayer wl ml fm sim1 (g1, log) p).2 = (processPlayer wl ml fm sim2 (g2, log) p).2 := by
  cases hd : p.discord_id with
  | none => simp [processPlayer, hd]
  | some id =>
    have hm : g1.members id = g2.members id := hagree id hd
    by_cases he : id = ""
    · subst he; simp [processPlayer, hd]
    · cases hg : g1.members id with
      | none =>
        have hg2 : g2.members id = none := by rw [← hm]; exact hg
        simp [processPlayer, hd, he, fetchMember, hg, hg2]
      | some roles =>
        have hg2 : g2.members id = some roles := by rw [← hm]; exact hg
        have he' : (id == "") = false := by simpa using he
        simp only [processPlayer, hd, he', Bool.false_eq_true, if_false, fetchMember, hg, hg2,
          RoleUpdateLog.mk.injEq]
        refine ⟨?_, ?_, ?_⟩ <;> apply roleStep_snd_congr

/-! ## Fold lemmas over the player loop -/

theorem foldl_processPlayer_fst_sim (wl ml fm : Int) :
    ∀ (players : List User) (st : Guild × RoleUpdateLog),
      (players.foldl (processPlayer wl ml fm true) st).1 = st.1 := by
  intro players
  induction players with
  | nil => intro st; rfl
  | cons p ps ih =>
    intro st
    rw [List.foldl_cons, ih]
    exact processPlayer_fst_sim wl ml fm st p

theorem foldl_processPlayer_mono (wl ml fm : Int) (sim : Bool) :
    ∀ (players : List User) (st : Guild × RoleUpdateLog) (x r : String),
      r ∈ memberRoles st.1 x →
      r ∈ memberRoles (players.foldl (processPlayer wl ml fm sim) st).1 x := by
  intro players
  induction players with
  | nil => intro st x r h; exact h
  | cons p ps ih =>
    intro st x r h
    rw [List.foldl_cons]
    exact ih _ x r (processPlayer_mono h)

theorem foldl_processPlayer_snd_congr (wl ml fm : Int) (sim1 sim2 : Bool) :
    ∀ (players : List User) (g1 g2 : Guild) (log : RoleUpdateLog),
      (∀ id, id ∈ players.filterMap User.discord_id → g1.members id = g2.members id) →
      (players.filterMap User.discord_id).Nodup →
      (players.foldl (processPlayer wl ml fm sim1) (g1, log)).2
        = (players.foldl (processPlayer wl ml fm sim2) (g2, log)).2 := by
  intro players
  induction players with
  | nil => intro g1 g2 log _ _; rfl
  | cons p ps ih =>
    intro g1 g2 log hagree hnd
    cases hd : p.discord_id with
    | none =>
      have h1 : processPlayer wl ml fm sim1 (g1, log) p = (g1, log) := by simp [processPlayer, hd]
      have h2 : processPlayer wl ml fm sim2 (g2, log) p = (g2, log) := by simp [processPlayer, hd]
      have hfm : (p :: ps).filterMap User.discord_id = ps.filterMap User.discord_id := by
        simp [List.filterMap_cons, hd]
      rw [List.foldl_cons, List.foldl_cons, h1, h2]
      refine ih g1 g2 log (fun id hid => hagree id ?_) ?_
      · rw [hfm]; exact hid
      · rw [← hfm]; exact hnd
    | some id =>
      have hfm : (p :: ps).filterMap User.discord_id = id :: ps.filterMap User.discord_id := by
        simp [List.filterMap_cons, hd]
      rw [hfm] at hagree hnd
      have hnotin : id ∉ ps.filterMap User.discord_id := (List.nodup_cons.mp hnd).1
      have hndps : (ps.filterMap User.discord_id).Nodup := (List.nodup_cons.mp hnd).2
      have hgid : g1.members id = g2.members id := hagree id (List.mem_cons_self _ _)
      have hlog : (processPlayer wl ml fm sim1 (g1, log) p).2
          = (processPlayer wl ml fm sim2 (g2, log) p).2 := by
        refine processPlayer_snd_congr sim1 sim2 g1 g2 log p (fun i hi => ?_)
        rw [hd] at hi
        cases hi
        exact hgid
      have hmem : ∀ i, i ∈ ps.filterMap User.discord_id →
          (processPlayer wl ml fm sim1 (g1, log) p).1.members i
            = (processPlayer wl ml fm sim2 (g2, log) p).1.members i := by
        intro i hi
        have hne : p.discord_id ≠ some i := by
          rw [hd]
          intro hcon
          cases hcon
          exact hnotin hi
        rw [processPlayer_members_ne hne, processPlayer_members_ne hne]
        exact hagree i (List.mem_cons_of_mem _ hi)
      rw [List.foldl_cons, List.foldl_cons]
      calc (ps.foldl (processPlayer wl ml fm sim1) (processPlayer wl ml fm sim1 (g1, log) p)).2
          = (ps.foldl (processPlayer wl ml fm sim1)
              ((processPlayer wl ml fm sim1 (g1, log) p).1,
               (processPlayer wl ml fm sim1 (g1, log) p).2)).2 := rfl
        _ = (ps.foldl (processPlayer wl ml fm sim2)
              ((processPlayer wl ml fm sim2 (g2, log) p).1,
               (processPlayer wl ml fm sim1 (g1, log) p).2)).2 := ih _ _ _ hmem hndps
        _ = (ps.foldl (processPlayer wl ml fm sim2)
              ((processPlayer wl ml fm sim2 (g2, log) p).1,
               (processPlayer wl ml fm sim2 (g2, log) p).2)).2 := by rw [hlog]
        _ = (ps.foldl (processPlayer wl ml fm sim2) (processPlayer wl ml fm sim2 (g2, log) p)).2 := rfl

/-! ## Claim theorems: threshold reconciler -/

/-- Claim C1: for every guild snapshot, team choice and threshold triple,
`updateRoles` with `isSimulation = true` returns the same `RoleUpdateLog`
counters as with `isSimulation = false` on the identical snapshot, and the
simulation performs no `roles.add` mutation (the guild state is unchanged).
The hypothesis is the user-store key constraint of the data model: the
non-null `discord_id` values are pairwise distinct. -/
theorem updateRoles_dry_run_equivalence (db : Db) (g : Guild) (teamType : TeamType)
    (wl ml fm : Int) (huniq : (db.users.filterMap User.discord_id).Nodup) :
    (updateRoles db g teamType wl ml fm true).2 = (updateRoles db g teamType wl ml fm false).2
      ∧ (updateRoles db g teamType wl ml fm true).1 = g := by
  simp only [updateRoles]
  split
  · constructor
    · exact foldl_processPlayer_snd_congr wl ml fm true false _ g g _ (fun id _ => rfl)
        (List.Nodup.sublist (List.Sublist.filterMap _ (List.filter_sublist _)) huniq)
    · exact foldl_processPlayer_fst_sim wl ml fm _ _
  · exact ⟨rfl, rfl⟩

/-- Witness for C1 at the reconcile scenario fixture. -/
theorem updateRoles_dry_run_equivalence_witness :
    ((updateRoles scenarioDb scenarioGuild TeamType.winning 100 200 500 true).2
        = (updateRoles scenarioDb scenarioGuild TeamType.winning 100 200 500 false).2)
      ∧ (updateRoles scenarioDb scenarioGuild TeamType.winning 100 200 500 true).1 = scenarioGuild :=
  updateRoles_dry_run_equivalence scenarioDb scenarioGuild TeamType.winning 100 200 500 (by decide)

/-- Claim C2: a run of `updateRoles` (dry-run or real) never removes a role:
whatever role a member held before the run, they still hold after it,
regardless of points and thresholds. -/
theorem updateRoles_additive_only (db : Db) (g : Guild) (teamType : TeamType)
    (wl ml fm : Int) (sim : Bool) (id r : String) (h : r ∈ memberRoles g id) :
    r ∈ memberRoles (updateRoles db g teamType wl ml fm sim).1 id := by
  simp only [updateRoles]
  split
  · exact foldl_processPlayer_mono wl ml fm sim _ _ id r h
  · exact h

/-- Witness for C2: member `a` keeps the unrelated role `x` through a real
run whose thresholds are all met. -/
theorem updateRoles_additive_only_witness :
    "x" ∈ memberRoles (updateRoles scenarioDb scenarioGuildX TeamType.winning 0 0 0 false).1 "a" :=
  updateRoles_additive_only scenarioDb scenarioGuildX TeamType.winning 0 0 0 false "a" "x" (by decide)

/-- Claim C3: in each category whose threshold the member meets, the member
counts as added exactly when they hold neither the base role nor the winner
variant (and the base role is granted when not simulating), and counts as
existing when they hold either; on the scenario snapshot of two roleless
members with 150 and 50 points and thresholds 100/200/500, the result is
whitelist added 1 existing 0 and zero in the other categories. -/
theorem updateRoles_classification :
    (∀ (b w : String) (t pts : Int) (sim : Bool) (id : String) (roles : List String)
        (g : Guild) (c : Counter), t ≤ pts →
      (((roles.contains b || roles.contains w) = false →
          (roleStep b w t pts sim id roles g c).2 = { c with added := c.added + 1 }
            ∧ (sim = false → (roleStep b w t pts sim id roles g c).1 = addRoleTo g id b)
            ∧ (sim = true → (roleStep b w t pts sim id roles g c).1 = g))
        ∧ ((roles.contains b || roles.contains w) = true →
          (roleStep b w t pts sim id roles g c).2 = { c with existing := c.existing + 1 }
            ∧ (roleStep b w t pts sim id roles g c).1 = g)))
    ∧ (updateRoles scenarioDb scenarioGuild TeamType.winning 100 200 500 true).2
        = ⟨⟨1, 0⟩, ⟨0, 0⟩, ⟨0, 0⟩⟩ := by
  constructor
  · intro b w t pts sim id roles g c ht
    constructor
    · intro hnone
      have hc : (!(roles.contains b) && !(roles.contains w)) = true := by
        rw [← Bool.not_or, hnone]; rfl
      unfold roleStep
      rw [if_pos ht, if_pos hc]
      refine ⟨rfl, ?_, ?_⟩
      · intro hs; subst hs; rfl
      · intro hs; subst hs; rfl
    · intro hsome
      have hc : (!(roles.contains b) && !(roles.contains w)) = false := by
        rw [← Bool.not_or, hsome]; rfl
      have hcn : ¬ ((!(roles.contains b) && !(roles.contains w)) = true) := by
        rw [hc]; exact Bool.false_ne_true
      unfold roleStep
      rw [if_pos ht, if_neg hcn]
      exact ⟨rfl, rfl⟩
  · decide

/-- Witness for C3: the 150-point roleless member counts as a whitelist
addition against threshold 100. -/
theorem updateRoles_classification_witness :
    (roleStep WHITELIST_ROLE_ID WL_WINNER_ROLE_ID 100 150 true "a" [] scenarioGuild ⟨0, 0⟩).2
      = { (⟨0, 0⟩ : Counter) with added := 0 + 1 } :=
  ((updateRoles_classification.1 WHITELIST_ROLE_ID WL_WINNER_ROLE_ID 100 150 true "a" []
      scenarioGuild ⟨0, 0⟩ (by decide)).1 (by decide)).1

/-- Claim C10: in both `updateRoles` and the `/snapshot` handler the winning
team is `bullas` exactly when the bullas point sum strictly exceeds the
beras sum; on a tied snapshot the winner is `beras`, so an updateroles run
for the winning team targets the beras population. -/
theorem winning_team_tie_rule (db : Db) :
    (winningTeamOf db = "bullas"
        ↔ sumPointsForTeam db "bullas" > sumPointsForTeam db "beras")
      ∧ snapshotWinningTeam db = winningTeamOf db
      ∧ (sumPointsForTeam db "bullas" = sumPointsForTeam db "beras" →
          winningTeamOf db = "beras" ∧ targetTeamOf db TeamType.winning = "beras"
            ∧ targetTeamOf db TeamType.losing = "bullas"
            ∧ snapshotWinningTeam db = "beras" ∧ snapshotLosingTeam db = "bullas") := by
  refine ⟨?_, rfl, ?_⟩
  · by_cases hgt : (getTeamPoints db).1 > (getTeamPoints db).2
    · exact ⟨fun _ => hgt, fun _ => by simp [winningTeamOf, hgt]⟩
    · constructor
      · intro hw
        have hb : winningTeamOf db = "beras" := by simp [winningTeamOf, hgt]
        rw [hb] at hw
        exact absurd hw (by decide)
      · intro h
        exact absurd h hgt
  · intro heq
    have hgt : ¬ ((getTeamPoints db).1 > (getTeamPoints db).2) := by
      have h12 : (getTeamPoints db).1 = (getTeamPoints db).2 := heq
      simp [h12]
    have hw : winningTeamOf db = "beras" := by simp [winningTeamOf, hgt]
    have hs : snapshotWinningTeam db = "beras" := hw
    refine ⟨hw, hw, ?_, hs, ?_⟩
    · simp [targetTeamOf, hw]
    · simp [snapshotLosingTeam, hs]

/-- Witness for C10 on the empty (hence tied) store. -/
theorem winning_team_tie_rule_witness :
    winningTeamOf ⟨[]⟩ = "beras" ∧ targetTeamOf ⟨[]⟩ TeamType.winning = "beras"
      ∧ targetTeamOf ⟨[]⟩ TeamType.losing = "bullas"
      ∧ snapshotWinningTeam ⟨[]⟩ = "beras" ∧ snapshotLosingTeam ⟨[]⟩ = "bullas" :=
  (winning_team_tie_rule ⟨[]⟩).2.2 (by decide)

/-! ## Ranking lemmas -/

theorem insertDesc_perm (u : User) (l : List User) : (insertDesc u l).Perm (u :: l) := by
  induction l with
  | nil => exact List.Perm.refl _
  | cons v vs ih =>
    unfold insertDesc
    split
    · exact List.Perm.refl _
    · exact (List.Perm.cons v ih).trans (List.Perm.swap u v vs)

theorem sortByPointsDesc_perm (l : List User) : (sortByPointsDesc l).Perm l := by
  induction l with
  | nil => exact List.Perm.refl _
  | cons u us ih => exact (insertDesc_perm u (sortByPointsDesc us)).trans (List.Perm.cons u ih)

theorem pairwise_insertDesc {u : User} {l : List User}
    (h : l.Pairwise (fun a b => b.points ≤ a.points)) :
    (insertDesc u l).Pairwise (fun a b => b.points ≤ a.points) := by
  induction l with
  | nil => simp [insertDesc]
  | cons v vs ih =>
    obtain ⟨hv, hvs⟩ := List.pairwise_cons.mp h
    unfold insertDesc
    by_cases hle : v.points ≤ u.points
    · rw [if_pos hle]
      refine List.pairwise_cons.mpr ⟨?_, List.pairwise_cons.mpr ⟨hv, hvs⟩⟩
      intro b hb
      rcases List.mem_cons.mp hb with rfl | hbvs
      · exact hle
      · exact le_trans (hv b hbvs) hle
    · rw [if_neg hle]
      refine List.pairwise_cons.mpr ⟨?_, ih hvs⟩
      intro b hb
      have hb' : b ∈ u :: vs := (insertDesc_perm u vs).mem_iff.mp hb
      rcases List.mem_cons.mp hb' with rfl | hbvs
      · exact le_of_lt (lt_of_not_le hle)
      · exact hv b hbvs

theorem pairwise_sortByPointsDesc (l : List User) :
    (sortByPointsDesc l).Pairwise (fun a b => b.points ≤ a.points) := by
  induction l with
  | nil => simp [sortByPointsDesc]
  | cons u us ih => exact pairwise_insertDesc ih

theorem flatten_pages (l : List User) :
    ∀ k : Nat, ((List.range k).map (fun i => (l.drop (i * 10)).take 10)).flatten
      = l.take (k * 10) := by
  intro k
  induction k with
  | zero => simp
  | succ n ih =>
    rw [List.range_succ, List.map_append, List.flatten_append]
    simp only [List.map_cons, List.map_nil, List.flatten_cons, List.flatten_nil, List.append_nil]
    rw [ih, Nat.succ_mul, List.take_add]

theorem findIndexOf_eq_none {p : User → Bool} {l : List User}
    (h : ∀ u, u ∈ l → p u = false) : findIndexOf p l = none := by
  induction l with
  | nil => rfl
  | cons v vs ih =>
    unfold findIndexOf
    rw [h v (List.mem_cons_self v vs), ih (fun u hu => h u (List.mem_cons_of_mem _ hu))]
    rfl

theorem findIndexOf_some_get {p : User → Bool} :
    ∀ {l : List User} {i : Nat}, findIndexOf p l = some i →
      ∃ h : i < l.length, p (l.get ⟨i, h⟩) = true := by
  intro l
  induction l with
  | nil => intro i h; simp [findIndexOf] at h
  | cons v vs ih =>
    intro i h
    by_cases hv : p v = true
    · unfold findIndexOf at h
      rw [if_pos hv] at h
      cases h
      exact ⟨by simp, hv⟩
    · unfold findIndexOf at h
      rw [if_neg hv] at h
      cases hrec : findIndexOf p vs with
      | none => rw [hrec] at h; simp at h
      | some j =>
        rw [hrec] at h
        simp only [Option.map_some'] at h
        obtain ⟨hj, hpj⟩ := ih hrec
        cases h
        refine ⟨by simpa using Nat.succ_lt_succ hj, ?_⟩
        simpa [List.get_cons_succ] using hpj

/-! ## Claim theorems: ranking service -/

/-- Claim C4: the ranked sequence is non-increasing in points, no excluded
id appears in it (hence consumes no rank slot), and concatenating the pages
served for page 1, 2, ... up to the total page count reproduces the full
ranked sequence exactly. -/
theorem leaderboard_ranking (db : Db) (c t : String) :
    (rankUsers db t).Pairwise (fun a b => b.points ≤ a.points)
      ∧ (∀ u, u ∈ rankUsers db t → ∀ id, u.discord_id = some id → id ∉ EXCLUDED_USER_IDS)
      ∧ ((List.range (totalPagesOf (rankUsers db t).length)).map
            (fun i => (leaderboard db c t (i + 1)).entries)).flatten = rankUsers db t := by
  refine ⟨pairwise_sortByPointsDesc _, ?_, ?_⟩
  · intro u hu id hid
    have hpop : u ∈ leaderboardPopulation db t := (sortByPointsDesc_perm _).mem_iff.mp hu
    have hpred := (List.mem_filter.mp hpop).2
    simp only [hid] at hpred
    have hcontains : EXCLUDED_USER_IDS.contains id = false :=
      (Bool.not_eq_true' _).mp ((Bool.and_eq_true _ _).mp hpred).1
    simp_all
  · have hentries : ∀ i : Nat, (leaderboard db c t (i + 1)).entries
        = ((rankUsers db t).drop (i * 10)).take 10 := by
      intro i
      simp [leaderboard, pageEntries]
    simp only [hentries]
    rw [flatten_pages]
    refine List.take_of_length_le ?_
    simp only [totalPagesOf]
    omega

/-- Witness for C4: on a store containing an excluded id, the ranked output
is just the regular row, and its id is certified non-excluded by the
theorem. -/
theorem leaderboard_ranking_witness :
    ("a" : String) ∉ EXCLUDED_USER_IDS :=
  (leaderboard_ranking dbEx "w" "all").2.1 ⟨some "a", 5, some "bullas"⟩ (by decide) "a" rfl

/-- Claim C5: pagination is 1-indexed with page size 10; `totalPages` is the
ceiling of the matching (filtered, exclusion-free) count divided by 10; with
25 matching members page 3 holds exactly 5 entries; Previous is disabled
exactly at page 1 and below, Next exactly at or past the last page. -/
theorem leaderboard_pagination :
    (∀ (db : Db) (c t : String) (p : Nat),
        (leaderboard db c t p).totalPages = ⌈((rankUsers db t).length : ℚ) / 10⌉₊
          ∧ ((leaderboard db c t p).prevDisabled = true ↔ p ≤ 1)
          ∧ ((leaderboard db c t p).nextDisabled = true
              ↔ (leaderboard db c t p).totalPages ≤ p))
      ∧ (leaderboard db25 "z" "all" 3).totalPages = 3
      ∧ (leaderboard db25 "z" "all" 3).entries.length = 5 := by
  refine ⟨?_, by decide, by decide⟩
  intro db c t p
  have hceil : ∀ n : ℕ, ⌈(n : ℚ) / 10⌉₊ = (n + 9) / 10 := by
    intro n
    have h10 : (0 : ℚ) < 10 := by norm_num
    apply le_antisymm
    · refine Nat.ceil_le.mpr ?_
      rw [div_le_iff₀ h10]
      exact_mod_cast (by omega : n ≤ ((n + 9) / 10) * 10)
    · have h := Nat.le_ceil ((n : ℚ) / 10)
      rw [div_le_iff₀ h10] at h
      have h2 : n ≤ ⌈(n : ℚ) / 10⌉₊ * 10 := by exact_mod_cast h
      omega
  refine ⟨?_, ?_, ?_⟩
  · simp [leaderboard, totalPagesOf, hceil]
  · simp [leaderboard]
  · simp [leaderboard]

/-- Claim C6: the rank shown for the caller is the 1-based position of the
caller's id in the whole filtered points-descending ranking, independent of
the requested page, and absent callers get no rank field. -/
theorem leaderboard_self_rank :
    (∀ (db : Db) (c t : String) (p q : Nat),
        (leaderboard db c t p).yourRank = (leaderboard db c t q).yourRank)
      ∧ (∀ (db : Db) (c t : String) (p : Nat),
          (∀ u, u ∈ rankUsers db t → u.discord_id ≠ some c) →
          (leaderboard db c t p).yourRank = none)
      ∧ (∀ (db : Db) (c t : String) (p : Nat) (r : Nat),
          (leaderboard db c t p).yourRank = some r →
          1 ≤ r ∧ ∃ h : r - 1 < (rankUsers db t).length,
            ((rankUsers db t).get ⟨r - 1, h⟩).discord_id = some c) := by
  refine ⟨fun db c t p q => rfl, ?_, ?_⟩
  · intro db c t p hnone
    simp only [leaderboard]
    rw [findIndexOf_eq_none]
    · rfl
    · intro u hu
      simpa using hnone u hu
  · intro db c t p r hr
    simp only [leaderboard] at hr
    cases hfi : findIndexOf (fun u => u.discord_id == some c) (rankUsers db t) with
    | none => rw [hfi] at hr; simp at hr
    | some j =>
      rw [hfi] at hr
      simp only [Option.map_some'] at hr
      obtain ⟨hj, hpj⟩ := findIndexOf_some_get hfi
      cases hr
      refine ⟨by omega, ?_⟩
      have hidx : j + 1 - 1 = j := by omega
      rw [hidx]
      exact ⟨hj, by simpa using hpj⟩

/-- Witness for C6: the sole ranked member of the fixture is reported at
global rank 1. -/
theorem leaderboard_self_rank_witness :
    1 ≤ 1 ∧ ∃ h : 1 - 1 < (rankUsers dbEx "all").length,
      ((rankUsers dbEx "all").get ⟨1 - 1, h⟩).discord_id = some "a" :=
  leaderboard_self_rank.2.2 dbEx "a" "all" 7 1 (by decide)

/-! ## Claim theorems: CSV formatter -/

/-- Claim C7: `createCSV` is deterministic given pre-resolved role flags;
its output is exactly the fixed header for the `includeId` mode followed by
the comma-joined `Y`/`N` rows in input order with no quoting; on the single
scenario row the output is exactly the header line, a newline and
`1,0xABC,10,N,N,N`. -/
theorem createCSV_format :
    (∀ (f1 f2 : String → Option (List String)) (data : List CsvUser) (incl : Bool),
        (∀ id, f1 id = f2 id) → createCSV data incl f1 = createCSV data incl f2)
      ∧ (∀ (data : List CsvUser) (incl : Bool) (f : String → Option (List String)),
          createCSV data incl f =
            (if incl then "discord_id,address,points,wl_role,ml_role,free_mint_role\n"
              else "address,points,wl_role,ml_role,free_mint_role\n")
              ++ String.intercalate "\n" (data.map (csvRow incl f)))
      ∧ createCSV [⟨"1", "0xABC", 10⟩] true (fun _ => some []) =
          "discord_id,address,points,wl_role,ml_role,free_mint_role\n1,0xABC,10,N,N,N" := by
  refine ⟨?_, fun data incl f => rfl, by decide⟩
  intro f1 f2 data incl h
  rw [funext h]

/-- Witness for C7: two extensionally equal role resolvers produce the same
output. -/
theorem createCSV_format_witness :
    createCSV [⟨"1", "0xABC", 10⟩] true (fun _ => some [])
      = createCSV [⟨"1", "0xABC", 10⟩] true (fun id => if id == "1" then some [] else some []) :=
  createCSV_format.1 _ _ [⟨"1", "0xABC", 10⟩] true (fun id => by simp)

/-! ## Claim theorems: point-mutation commands -/

/-- Counterexample to C8 as stated: with 30 points and fine amount `-5` the
points are not strictly below the amount, so the claim asserts the balance
becomes `30 - (-5)`; the code instead rejects the non-positive amount at
input validation and leaves the balance at 30. -/
theorem fine_claim_counterexample :
    ¬ (¬ ((30 : Int) < -5) →
        (findUser (fineHandler dbFine (some "t") (-5)).1 "t").map User.points
          = some ((30 : Int) - (-5))) := by
  decide

/-- Claim C8 amended: for a positive fine amount, a target whose points are
strictly below the amount is rejected with a user-visible message and no
store update (30 points against a 50 fine stays 30); otherwise the points
are set to points minus amount.  Non-positive amounts are rejected by the
input validation with no update. -/
theorem fine_floor (db : Db) (targetId : String) (amount : Int) (u : User)
    (hu : findUser db targetId = some u) :
    (0 < amount → u.points < amount →
        (fineHandler db (some targetId) amount).1 = db
          ∧ (fineHandler db (some targetId) amount).2
              = "The user lacks enough points for this fine.")
      ∧ (0 < amount → amount ≤ u.points →
          (fineHandler db (some targetId) amount).1
            = updatePoints db targetId (u.points - amount))
      ∧ (amount ≤ 0 → (fineHandler db (some targetId) amount).1 = db) := by
  refine ⟨?_, ?_, ?_⟩
  · intro hpos hlt
    have hc : ((amount == 0) || decide (amount ≤ 0)) = false := by
      have h1 : amount ≠ 0 := by omega
      have h2 : ¬ (amount ≤ 0) := by omega
      simp [h1, h2]
    simp only [fineHandler, hc, Bool.false_eq_true, if_false, hu, hlt, if_true]
    exact ⟨trivial, trivial⟩
  · intro hpos hge
    have hc : ((amount == 0) || decide (amount ≤ 0)) = false := by
      have h1 : amount ≠ 0 := by omega
      have h2 : ¬ (amount ≤ 0) := by omega
      simp [h1, h2]
    have hnlt : ¬ (u.points < amount) := not_lt.mpr hge
    simp [fineHandler, hc, hu, hnlt]
  · intro hneg
    have hc : ((amount == 0) || decide (amount ≤ 0)) = true := by simp [hneg]
    simp only [fineHandler, hc, if_true]

/-- Witness for C8 at the fine-floor scenario: 30 points against a 50 fine
is rejected leaving the store untouched, and a 20 fine sets the balance by a
single set-absolute update to 30 - 20. -/
theorem fine_floor_witness :
    ((fineHandler dbFine (some "t") 50).1 = dbFine
        ∧ (fineHandler dbFine (some "t") 50).2 = "The user lacks enough points for this fine.")
      ∧ (fineHandler dbFine (some "t") 20).1 = updatePoints dbFine "t" ((30 : Int) - 20) :=
  ⟨(fine_floor dbFine "t" 50 ⟨some "t", 30, none⟩ (by decide)).1 (by decide) (by decide),
   (fine_floor dbFine "t" 20 ⟨some "t", 30, none⟩ (by decide)).2.1 (by decide) (by decide)⟩

/-- Claim C9, divergence record: the transfer validation rejects a missing
target and a zero amount with no mutation, but a negative amount passes the
`!targetUser || !amount` check and both rows are mutated (the sender with 30
points rises to 35, the receiver with 10 drops to 5), contradicting the
claimed immediate rejection of every non-positive amount. -/
theorem transfer_validation_divergence :
    (transferHandler dbTransfer "s" none 7).1 = dbTransfer
      ∧ (transferHandler dbTransfer "s" (some "r") 0).1 = dbTransfer
      ∧ (findUser (transferHandler dbTransfer "s" (some "r") (-5)).1 "s").map User.points
          = some 35
      ∧ (findUser (transferHandler dbTransfer "s" (some "r") (-5)).1 "r").map User.points
          = some 5 := by
  decide
